import Mathlib

/-!
Verification of the ICP_DAO proposal registry (src/src/index.ts).

The canister stores `Proposal` records in a `StableBTreeMap<string, Proposal>`.
We embed the store as an association list with unique keys maintained by the
operations, principals and timestamps as strings and naturals, and each
exported function as a pure function from the store (plus the ambient caller
identity, clock value and generated id, which Azle supplies through
`ic.caller()`, `ic.time()` and `uuidv4()`) to a `Result` paired with the
updated store.
-/

namespace ICPDao

/-- The `Proposal` record type of index.ts.  `owner` is the textual form of
the `Principal` (the code always compares principals via `toString()`),
`voters` is the `Vec<string>` of voter identities, the vote counters are the
`number` fields, and `updated_at` is the `Opt<nat64>`. -/
structure Proposal where
  owner : String
  id : String
  title : String
  description : String
  voters : List String
  yesVotes : Nat
  noVotes : Nat
  created_at : Nat
  updated_at : Option Nat
  deriving Repr, DecidableEq

/-- The `proposalStorage` map, keyed by proposal id. -/
abbrev Store := List (String × Proposal)

/-- `proposalStorage.get(id)`. -/
def storeGet (s : Store) (k : String) : Option Proposal :=
  match s with
  | [] => none
  | (k2, v) :: rest => if k2 = k then some v else storeGet rest k

/-- `proposalStorage.insert(id, p)`: overwrite the binding for `id` if
present, otherwise add a new one. -/
def storeInsert (s : Store) (k : String) (v : Proposal) : Store :=
  match s with
  | [] => [(k, v)]
  | (k2, v2) :: rest =>
    if k2 = k then (k, v) :: rest else (k2, v2) :: storeInsert rest k v

/-- `proposalStorage.remove(id)`: the removed value (if any) and the
remaining store. -/
def storeRemove (s : Store) (k : String) : Option Proposal × Store :=
  match s with
  | [] => (none, [])
  | (k2, v2) :: rest =>
    if k2 = k then (some v2, rest)
    else
      let r := storeRemove rest k
      (r.fst, (k2, v2) :: r.snd)

/-- `proposalStorage.values()`. -/
def storeValues (s : Store) : List Proposal := s.map Prod.snd

/-- `getProposals()` (index.ts line 58). -/
def getProposals (s : Store) : Except String (List Proposal) × Store :=
  (Except.ok (storeValues s), s)

/-- `getProposal(id)` (index.ts line 66). -/
def getProposal (s : Store) (id : String) : Except String Proposal × Store :=
  match storeGet s id with
  | some proposal => (Except.ok proposal, s)
  | none => (Except.error ("A proposal with id=" ++ id ++ " not found"), s)

/-- `createProposal(payload)` (index.ts line 77).  `caller` is `ic.caller()`,
`newId` the `uuidv4()` result, `now` is `ic.time()`.  The JS guard
`!title || !description` on strings is truth-y emptiness. -/
def createProposal (s : Store) (caller newId : String) (now : Nat)
    (title description : String) : Except String Proposal × Store :=
  if title = "" ∨ description = "" then
    (Except.error "Missing required fields", s)
  else
    let proposal : Proposal :=
      { owner := caller,
        id := newId,
        title := title,
        description := description,
        voters := [],
        yesVotes := 0,
        noVotes := 0,
        created_at := now,
        updated_at := none }
    (Except.ok proposal, storeInsert s proposal.id proposal)

/-- `voteYes(id)` (index.ts line 105).  Note: the source increments
`yesVotes` and stamps `updated_at` but never appends the caller to
`voters` — the record spread copies `voters` unchanged. -/
def voteYes (s : Store) (caller : String) (now : Nat) (id : String) :
    Except String Proposal × Store :=
  match storeGet s id with
  | some proposal =>
    if proposal.owner = caller then
      (Except.error "Owners cannot vote for their own proposal", s)
    else
      let hasVoted := proposal.voters.contains caller
      if hasVoted then
        (Except.error "Already voted", s)
      else
        let updatedProposal : Proposal :=
          { proposal with yesVotes := proposal.yesVotes + 1, updated_at := some now }
        (Except.ok updatedProposal, storeInsert s proposal.id updatedProposal)
  | none =>
    (Except.error ("Couldn\x27t update a proposal with id=" ++ id ++ ". Proposal not found"), s)

/-- `voteNo(id)` (index.ts line 130), symmetric to `voteYes` on `noVotes`. -/
def voteNo (s : Store) (caller : String) (now : Nat) (id : String) :
    Except String Proposal × Store :=
  match storeGet s id with
  | some proposal =>
    if proposal.owner = caller then
      (Except.error "Owners cannot vote for their own proposal", s)
    else
      let hasVoted := proposal.voters.contains caller
      if hasVoted then
        (Except.error "Already voted", s)
      else
        let updatedProposal : Proposal :=
          { proposal with noVotes := proposal.noVotes + 1, updated_at := some now }
        (Except.ok updatedProposal, storeInsert s proposal.id updatedProposal)
  | none =>
    (Except.error ("Couldn\x27t update a proposal with id=" ++ id ++ ". Proposal not found"), s)

/-- `updateProposal(id, payload)` (index.ts line 155).  The record spread
`{ ...proposal, ...payload, updated_at: Opt.Some(ic.time()) }` overwrites
exactly `title`, `description` and `updated_at`; there is no emptiness
validation of the payload. -/
def updateProposal (s : Store) (caller : String) (now : Nat)
    (id title description : String) : Except String Proposal × Store :=
  match storeGet s id with
  | some proposal =>
    if proposal.owner ≠ caller then
      (Except.error "Only the owner of a proposal can update it", s)
    else
      let updatedProposal : Proposal :=
        { proposal with
          title := title,
          description := description,
          updated_at := some now }
      (Except.ok updatedProposal, storeInsert s proposal.id updatedProposal)
  | none =>
    (Except.error ("Couldn\x27t update a proposal with id=" ++ id ++ ". Proposal not found"), s)

/-- `deleteProposal(id)` (index.ts line 174): remove first, match the
removed value.  No ownership check, hence no caller parameter. -/
def deleteProposal (s : Store) (id : String) : Except String Proposal × Store :=
  let r := storeRemove s id
  match r.fst with
  | some deletedProposal => (Except.ok deletedProposal, r.snd)
  | none =>
    (Except.error ("Couldn\x27t delete a proposal with id=" ++ id ++ ". Proposal not found."), s)

/-- One invocation of any exported canister method, with the ambient values
(caller, clock, generated id) made explicit. -/
inductive Op where
  | create (caller newId : String) (now : Nat) (title description : String)
  | vyes (caller : String) (now : Nat) (id : String)
  | vno (caller : String) (now : Nat) (id : String)
  | update (caller : String) (now : Nat) (id title description : String)
  | delete (id : String)
  | getOne (id : String)
  | getAll

/-- The successful payload of any of the seven operations. -/
inductive OpResult where
  | one (p : Proposal)
  | many (ps : List Proposal)

/-- Run one operation against the store. -/
def applyOp (s : Store) (op : Op) : Except String OpResult × Store :=
  match op with
  | .create caller newId now title description =>
    let r := createProposal s caller newId now title description
    (r.fst.map OpResult.one, r.snd)
  | .vyes caller now id =>
    let r := voteYes s caller now id
    (r.fst.map OpResult.one, r.snd)
  | .vno caller now id =>
    let r := voteNo s caller now id
    (r.fst.map OpResult.one, r.snd)
  | .update caller now id title description =>
    let r := updateProposal s caller now id title description
    (r.fst.map OpResult.one, r.snd)
  | .delete id =>
    let r := deleteProposal s id
    (r.fst.map OpResult.one, r.snd)
  | .getOne id =>
    let r := getProposal s id
    (r.fst.map OpResult.one, r.snd)
  | .getAll =>
    let r := getProposals s
    (r.fst.map OpResult.many, r.snd)

/-- The store after one operation. -/
def stepStore (s : Store) (op : Op) : Store := (applyOp s op).snd

/-- The store after a sequence of operations. -/
def run (s : Store) (ops : List Op) : Store := ops.foldl stepStore s

/-- Every key of the store maps to a proposal whose `id` field is that key. -/
def KeyInv (s : Store) : Prop := ∀ kv ∈ s, (kv.2).id = kv.1

lemma storeGet_insert_self (s : Store) (k : String) (v : Proposal) :
    storeGet (storeInsert s k v) k = some v := by
  induction s with
  | nil => simp [storeInsert, storeGet]
  | cons hd tl ih =>
    obtain ⟨k2, v2⟩ := hd
    by_cases h : k2 = k
    · simp [storeInsert, storeGet, h]
    · simp [storeInsert, storeGet, h, ih]

lemma storeInsert_length_of_none (s : Store) (k : String) (v : Proposal)
    (h : storeGet s k = none) : (storeInsert s k v).length = s.length + 1 := by
  induction s with
  | nil => simp [storeInsert]
  | cons hd tl ih =>
    obtain ⟨k2, v2⟩ := hd
    by_cases hk : k2 = k
    · simp [storeGet, hk] at h
    · simp [storeGet, hk] at h
      simp [storeInsert, hk, ih h]

lemma storeRemove_fst (s : Store) (k : String) :
    (storeRemove s k).fst = storeGet s k := by
  induction s with
  | nil => simp [storeRemove, storeGet]
  | cons hd tl ih =>
    obtain ⟨k2, v2⟩ := hd
    by_cases h : k2 = k
    · simp [storeRemove, storeGet, h]
    · simp [storeRemove, storeGet, h, ih]

lemma storeRemove_snd_of_none (s : Store) (k : String)
    (h : storeGet s k = none) : (storeRemove s k).snd = s := by
  induction s with
  | nil => simp [storeRemove]
  | cons hd tl ih =>
    obtain ⟨k2, v2⟩ := hd
    by_cases hk : k2 = k
    · simp [storeGet, hk] at h
    · simp [storeGet, hk] at h
      simp [storeRemove, hk, ih h]

lemma storeGet_none_of_not_mem (s : Store) (k : String)
    (h : k ∉ s.map Prod.fst) : storeGet s k = none := by
  induction s with
  | nil => simp [storeGet]
  | cons hd tl ih =>
    obtain ⟨k2, v2⟩ := hd
    simp only [List.map_cons, List.mem_cons, not_or] at h
    by_cases hk : k2 = k
    · exact absurd hk.symm h.1
    · simp [storeGet, hk, ih h.2]

lemma storeGet_remove_self (s : Store) (k : String)
    (hnd : (s.map Prod.fst).Nodup) : storeGet (storeRemove s k).snd k = none := by
  induction s with
  | nil => simp [storeRemove, storeGet]
  | cons hd tl ih =>
    obtain ⟨k2, v2⟩ := hd
    simp only [List.map_cons, List.nodup_cons] at hnd
    by_cases hk : k2 = k
    · simp only [storeRemove, hk, if_pos rfl]
      exact storeGet_none_of_not_mem tl k (hk ▸ hnd.1)
    · simp [storeRemove, storeGet, hk, ih hnd.2]

lemma keyInv_insert {s : Store} {k : String} {v : Proposal}
    (hs : KeyInv s) (hv : v.id = k) : KeyInv (storeInsert s k v) := by
  induction s with
  | nil =>
    intro kv hkv
    simp [storeInsert] at hkv
    simp [hkv, hv]
  | cons hd tl ih =>
    obtain ⟨k2, v2⟩ := hd
    have htl : KeyInv tl := fun kv hkv => hs kv (List.mem_cons_of_mem _ hkv)
    by_cases h : k2 = k
    · intro kv hkv
      simp only [storeInsert, if_pos h] at hkv
      rcases List.mem_cons.mp hkv with heq | hmem
      · simp [heq, hv]
      · exact hs kv (List.mem_cons_of_mem _ hmem)
    · intro kv hkv
      simp only [storeInsert, if_neg h] at hkv
      rcases List.mem_cons.mp hkv with heq | hmem
      · exact heq ▸ hs (k2, v2) (List.mem_cons_self _ _)
      · exact ih htl kv hmem

lemma keyInv_remove {s : Store} {k : String} (hs : KeyInv s) :
    KeyInv (storeRemove s k).snd := by
  induction s with
  | nil => intro kv hkv; simp [storeRemove] at hkv
  | cons hd tl ih =>
    obtain ⟨k2, v2⟩ := hd
    have htl : KeyInv tl := fun kv hkv => hs kv (List.mem_cons_of_mem _ hkv)
    by_cases h : k2 = k
    · simpa [storeRemove, h] using htl
    · intro kv hkv
      simp only [storeRemove, if_neg h] at hkv
      rcases List.mem_cons.mp hkv with heq | hmem
      · exact heq ▸ hs (k2, v2) (List.mem_cons_self _ _)
      · exact ih htl kv hmem

lemma keyInv_step {s : Store} (op : Op) (hs : KeyInv s) :
    KeyInv (stepStore s op) := by
  cases op with
  | create caller newId now title description =>
    simp only [stepStore, applyOp, createProposal]
    by_cases h : title = "" ∨ description = ""
    · simpa [h] using hs
    · simp only [if_neg h]
      exact keyInv_insert hs rfl
  | vyes caller now id =>
    simp only [stepStore, applyOp, voteYes]
    cases hget : storeGet s id with
    | none => simpa using hs
    | some proposal =>
      by_cases how : proposal.owner = caller
      · simpa [how] using hs
      · by_cases hv : caller ∈ proposal.voters
        · simpa [how, hv] using hs
        · have h2 : ¬(proposal.voters.contains caller = true) := by simpa using hv
          simp only [how, h2, if_false, ite_false]
          exact keyInv_insert hs rfl
  | vno caller now id =>
    simp only [stepStore, applyOp, voteNo]
    cases hget : storeGet s id with
    | none => simpa using hs
    | some proposal =>
      by_cases how : proposal.owner = caller
      · simpa [how] using hs
      · by_cases hv : caller ∈ proposal.voters
        · simpa [how, hv] using hs
        · have h2 : ¬(proposal.voters.contains caller = true) := by simpa using hv
          simp only [how, h2, if_false, ite_false]
          exact keyInv_insert hs rfl
  | update caller now id title description =>
    simp only [stepStore, applyOp, updateProposal]
    cases hget : storeGet s id with
    | none => simpa using hs
    | some proposal =>
      by_cases how : proposal.owner = caller
      · simp only [how, ne_eq, not_true_eq_false, if_false]
        exact keyInv_insert hs rfl
      · simpa [how] using hs
  | delete id =>
    simp only [stepStore, applyOp, deleteProposal]
    cases hrem : (storeRemove s id).fst with
    | none => simpa using hs
    | some p =>
      simpa using keyInv_remove (k := id) hs
  | getOne id =>
    simp only [stepStore, applyOp, getProposal]
    cases hget : storeGet s id with
    | none => simpa using hs
    | some p => simpa using hs
  | getAll => simpa [stepStore, applyOp, getProposals] using hs

lemma keyInv_run {s : Store} (ops : List Op) (hs : KeyInv s) :
    KeyInv (run s ops) := by
  induction ops generalizing s with
  | nil => simpa [run] using hs
  | cons op rest ih =>
    simp only [run, List.foldl_cons]
    exact ih (keyInv_step op hs)

/-- A concrete stored proposal (created by caller "A" at time 1), used by
the concrete instances below. -/
def pA : Proposal :=
  { owner := "A",
    id := "p1",
    title := "T",
    description := "D",
    voters := [],
    yesVotes := 0,
    noVotes := 0,
    created_at := 1,
    updated_at := none }

/-- A store holding exactly `pA` under its id. -/
def store1 : Store := [("p1", pA)]

/-- C1: the claimed invariant `yesVotes + noVotes = |voters|` fails on the
code.  After `createProposal` by "A" and one successful `voteYes` by "B",
the stored proposal has `yesVotes + noVotes = 1` but an empty `voters`
list, because `voteYes` never appends the caller to `voters`. -/
theorem votes_voters_sum_invariant_fails :
    storeGet (run [] [Op.create "A" "p1" 1 "T" "D", Op.vyes "B" 2 "p1"]) "p1" =
      some { owner := "A",
             id := "p1",
             title := "T",
             description := "D",
             voters := [],
             yesVotes := 1,
             noVotes := 0,
             created_at := 1,
             updated_at := some 2 } ∧
    (1 : Nat) + 0 ≠ List.length ([] : List String) := by
  exact ⟨rfl, by decide⟩

/-- C2: the claim fails on the code.  A successful `voteYes` by "B" on a
proposal owned by "A" increments `yesVotes`, stamps `updated_at` and
persists under the same id — but the returned and stored record's `voters`
list is still empty: the caller was never added. -/
theorem voteYes_omits_caller_from_voters :
    voteYes store1 "B" 5 "p1" =
      (Except.ok { owner := "A",
                   id := "p1",
                   title := "T",
                   description := "D",
                   voters := [],
                   yesVotes := 1,
                   noVotes := 0,
                   created_at := 1,
                   updated_at := some 5 },
       [("p1", { owner := "A",
                 id := "p1",
                 title := "T",
                 description := "D",
                 voters := [],
                 yesVotes := 1,
                 noVotes := 0,
                 created_at := 1,
                 updated_at := some 5 })]) ∧
    "B" ∉ ([] : List String) := by
  exact ⟨rfl, by decide⟩

/-- C3: the claim fails on the code.  "B" calling `voteYes` twice on "A"'s
proposal succeeds BOTH times — the second call returns `Ok` with
`yesVotes = 2` instead of failing with `AlreadyVoted`, because the caller
is never recorded in `voters`. -/
theorem voteYes_second_call_also_succeeds :
    (voteYes (voteYes store1 "B" 5 "p1").snd "B" 6 "p1").fst =
      Except.ok { owner := "A",
                  id := "p1",
                  title := "T",
                  description := "D",
                  voters := [],
                  yesVotes := 2,
                  noVotes := 0,
                  created_at := 1,
                  updated_at := some 6 } := by
  exact rfl

/-- C4: on any store, if the stored proposal's owner equals the caller,
`voteYes` and `voteNo` fail with the Forbidden error ("Owners cannot vote
for their own proposal") and return the store unchanged, regardless of the
proposal's vote history. -/
theorem owner_vote_forbidden (s : Store) (id caller : String) (nowY nowN : Nat)
    (p : Proposal) (hget : storeGet s id = some p) (hown : p.owner = caller) :
    voteYes s caller nowY id =
      (Except.error "Owners cannot vote for their own proposal", s) ∧
    voteNo s caller nowN id =
      (Except.error "Owners cannot vote for their own proposal", s) := by
  constructor
  · simp [voteYes, hget, hown]
  · simp [voteNo, hget, hown]

/-- C4 witness: owner "A" voting on their own stored proposal `pA`. -/
theorem owner_vote_forbidden_witness :
    voteYes store1 "A" 5 "p1" =
      (Except.error "Owners cannot vote for their own proposal", store1) ∧
    voteNo store1 "A" 6 "p1" =
      (Except.error "Owners cannot vote for their own proposal", store1) :=
  owner_vote_forbidden store1 "p1" "A" 5 6 pA rfl rfl

/-- C5: `createProposal` fails (with "Missing required fields") and leaves
the store untouched exactly when `title` or `description` is empty;
otherwise it succeeds, returning and storing under the fresh id a record
with owner = caller, the given title and description, empty voters, zero
counters, `created_at` = now and `updated_at` absent.  When the generated
id is fresh the store grows by exactly one row. -/
theorem createProposal_spec (s : Store) (caller newId : String) (now : Nat)
    (title description : String) :
    ((∃ e, (createProposal s caller newId now title description).fst =
        Except.error e) ↔ (title = "" ∨ description = "")) ∧
    (title = "" ∨ description = "" →
      createProposal s caller newId now title description =
        (Except.error "Missing required fields", s)) ∧
    (title ≠ "" → description ≠ "" →
      ∃ p : Proposal,
        createProposal s caller newId now title description =
          (Except.ok p, storeInsert s newId p) ∧
        p.id = newId ∧ p.owner = caller ∧ p.title = title ∧
        p.description = description ∧ p.voters = [] ∧ p.yesVotes = 0 ∧
        p.noVotes = 0 ∧ p.created_at = now ∧ p.updated_at = none ∧
        storeGet (storeInsert s newId p) newId = some p ∧
        (storeGet s newId = none →
          (storeInsert s newId p).length = s.length + 1)) := by
  by_cases hc : title = "" ∨ description = ""
  · refine ⟨⟨fun _ => hc, fun _ => ?_⟩, fun _ => ?_, fun ht hd => ?_⟩
    · exact ⟨"Missing required fields", by simp [createProposal, hc]⟩
    · simp [createProposal, hc]
    · exact absurd hc (by simp [ht, hd])
  · refine ⟨⟨fun ⟨e, he⟩ => ?_, fun h => absurd h hc⟩, fun h => absurd h hc,
      fun _ _ => ?_⟩
    · simp [createProposal, hc] at he
    · refine ⟨⟨caller, newId, title, description, [], 0, 0, now, none⟩,
        by simp [createProposal, hc], rfl, rfl, rfl,
        rfl, rfl, rfl, rfl, rfl, rfl, storeGet_insert_self s newId _,
        fun hfresh => storeInsert_length_of_none s newId _ hfresh⟩

/-- C5 witness: an empty title is rejected without touching the store, and
a non-empty creation at the empty store produces an error-free result. -/
theorem createProposal_spec_witness :
    createProposal [] "A" "n1" 7 "" "D" =
      (Except.error "Missing required fields", []) ∧
    ((∃ e, (createProposal [] "A" "n2" 8 "T" "D").fst = Except.error e) ↔
      ("T" = "" ∨ "D" = "")) :=
  ⟨(createProposal_spec [] "A" "n1" 7 "" "D").2.1 (Or.inl rfl),
    (createProposal_spec [] "A" "n2" 8 "T" "D").1⟩

/-- C6: `updateProposal` on a stored proposal fails with the Forbidden
error and leaves the store unchanged when the caller differs from the
stored owner; called by the owner it succeeds, overwriting exactly `title`
and `description` and stamping `updated_at`, while preserving `id`,
`owner`, `voters`, both vote counters and `created_at`, and persisting the
result under the proposal's id. -/
theorem updateProposal_spec (s : Store) (id caller title2 desc2 : String)
    (now : Nat) (p : Proposal) (hget : storeGet s id = some p) :
    (p.owner ≠ caller →
      updateProposal s caller now id title2 desc2 =
        (Except.error "Only the owner of a proposal can update it", s)) ∧
    (p.owner = caller →
      ∃ q : Proposal,
        updateProposal s caller now id title2 desc2 =
          (Except.ok q, storeInsert s p.id q) ∧
        q.title = title2 ∧ q.description = desc2 ∧ q.updated_at = some now ∧
        q.id = p.id ∧ q.owner = p.owner ∧ q.voters = p.voters ∧
        q.yesVotes = p.yesVotes ∧ q.noVotes = p.noVotes ∧
        q.created_at = p.created_at) := by
  constructor
  · intro hne
    simp [updateProposal, hget, hne]
  · intro hown
    refine ⟨{ p with
        title := title2,
        description := desc2,
        updated_at := some now }, ?_, rfl, rfl, rfl, rfl, rfl, rfl, rfl, rfl,
      rfl⟩
    simp [updateProposal, hget, hown]

/-- C6 witness: non-owner "B" is rejected with the store unchanged. -/
theorem updateProposal_spec_witness :
    updateProposal store1 "B" 9 "p1" "T2" "D2" =
      (Except.error "Only the owner of a proposal can update it", store1) :=
  (updateProposal_spec store1 "p1" "B" "T2" "D2" 9 pA rfl).1 (by decide)

/-- C7: on a store with distinct keys (as the backing map guarantees),
`deleteProposal` of a present id — with no ownership check, the operation
takes no caller — returns the removed record and a store on which
`getProposal` of that id fails with the NotFound error; on an absent id it
fails with the NotFound error and returns the store unchanged. -/
theorem deleteProposal_spec (s : Store) (id : String)
    (hnd : (s.map Prod.fst).Nodup) :
    (∀ p : Proposal, storeGet s id = some p →
      deleteProposal s id = (Except.ok p, (storeRemove s id).snd) ∧
      (getProposal (storeRemove s id).snd id).fst =
        Except.error ("A proposal with id=" ++ id ++ " not found")) ∧
    (storeGet s id = none →
      deleteProposal s id =
        (Except.error ("Couldn\x27t delete a proposal with id=" ++ id ++
          ". Proposal not found."), s)) := by
  constructor
  · intro p hp
    have hfst : (storeRemove s id).fst = some p := by
      rw [storeRemove_fst]; exact hp
    constructor
    · simp [deleteProposal, hfst]
    · have hnone : storeGet (storeRemove s id).snd id = none :=
        storeGet_remove_self s id hnd
      simp [getProposal, hnone]
  · intro hnone
    have hfst : (storeRemove s id).fst = none := by
      rw [storeRemove_fst]; exact hnone
    simp [deleteProposal, hfst]

/-- C7 witness: deleting the only proposal empties the store and a
subsequent lookup fails; deleting a missing id fails and changes
nothing. -/
theorem deleteProposal_spec_witness :
    (deleteProposal store1 "p1" = (Except.ok pA, []) ∧
      (getProposal [] "p1").fst =
        Except.error ("A proposal with id=" ++ "p1" ++ " not found")) ∧
    deleteProposal store1 "zz" =
      (Except.error ("Couldn\x27t delete a proposal with id=" ++ "zz" ++
        ". Proposal not found."), store1) :=
  ⟨(deleteProposal_spec store1 "p1" (by decide)).1 pA rfl,
    (deleteProposal_spec store1 "zz" (by decide)).2 rfl⟩

/-- C8 counterexample: the claim that `updateProposal` enforces
non-emptiness is false.  The owner "A" updating `pA` with empty title and
description succeeds and overwrites both fields with the empty string. -/
theorem updateProposal_accepts_empty_fields :
    updateProposal store1 "A" 9 "p1" "" "" =
      (Except.ok { owner := "A",
                   id := "p1",
                   title := "",
                   description := "",
                   voters := [],
                   yesVotes := 0,
                   noVotes := 0,
                   created_at := 1,
                   updated_at := some 9 },
       [("p1", { owner := "A",
                 id := "p1",
                 title := "",
                 description := "",
                 voters := [],
                 yesVotes := 0,
                 noVotes := 0,
                 created_at := 1,
                 updated_at := some 9 })]) := by
  exact rfl

/-- C8 amended: `updateProposal` performs no emptiness validation at all —
called by the owner it succeeds for every supplied title and description,
the empty ones included, overwriting the stored fields with the supplied
values. -/
theorem updateProposal_no_validation (s : Store) (id caller title2 desc2 : String)
    (now : Nat) (p : Proposal) (hget : storeGet s id = some p)
    (hown : p.owner = caller) :
    updateProposal s caller now id title2 desc2 =
      (Except.ok { p with
          title := title2,
          description := desc2,
          updated_at := some now },
       storeInsert s p.id { p with
          title := title2,
          description := desc2,
          updated_at := some now }) := by
  simp [updateProposal, hget, hown]

/-- C8 amended witness: the owner updating with empty fields succeeds. -/
theorem updateProposal_no_validation_witness :
    updateProposal store1 "A" 9 "p1" "" "" =
      (Except.ok { pA with
          title := "",
          description := "",
          updated_at := some 9 },
       storeInsert store1 "p1" { pA with
          title := "",
          description := "",
          updated_at := some 9 }) :=
  updateProposal_no_validation store1 "p1" "A" "" "" 9 pA rfl rfl

/-- C9: every operation is idempotent on failure — for every operation,
input, caller and starting store, a call that returns an error leaves the
stored state exactly as it was. -/
theorem error_leaves_store_unchanged (s : Store) (op : Op) (e : String)
    (h : (applyOp s op).fst = Except.error e) : (applyOp s op).snd = s := by
  cases op with
  | create caller newId now title description =>
    by_cases hc : title = "" ∨ description = ""
    · simp [applyOp, createProposal, hc]
    · simp [applyOp, createProposal, hc, Except.map] at h
  | vyes caller now id =>
    cases hget : storeGet s id with
    | none => simp [applyOp, voteYes, hget]
    | some p =>
      by_cases how : p.owner = caller
      · simp [applyOp, voteYes, hget, how]
      · by_cases hv : caller ∈ p.voters
        · simp [applyOp, voteYes, hget, how, hv]
        · simp [applyOp, voteYes, hget, how, hv, Except.map] at h
  | vno caller now id =>
    cases hget : storeGet s id with
    | none => simp [applyOp, voteNo, hget]
    | some p =>
      by_cases how : p.owner = caller
      · simp [applyOp, voteNo, hget, how]
      · by_cases hv : caller ∈ p.voters
        · simp [applyOp, voteNo, hget, how, hv]
        · simp [applyOp, voteNo, hget, how, hv, Except.map] at h
  | update caller now id title description =>
    cases hget : storeGet s id with
    | none => simp [applyOp, updateProposal, hget]
    | some p =>
      by_cases how : p.owner = caller
      · simp [applyOp, updateProposal, hget, how, Except.map] at h
      · simp [applyOp, updateProposal, hget, how]
  | delete id =>
    cases hrem : (storeRemove s id).fst with
    | some p => simp [applyOp, deleteProposal, hrem, Except.map] at h
    | none => simp [applyOp, deleteProposal, hrem]
  | getOne id =>
    cases hget : storeGet s id with
    | none => simp [applyOp, getProposal, hget]
    | some p => simp [applyOp, getProposal, hget]
  | getAll => simp [applyOp, getProposals]

/-- C9 witness: the owner voting on their own proposal fails and the store
is unchanged. -/
theorem error_leaves_store_unchanged_witness :
    (applyOp store1 (Op.vyes "A" 5 "p1")).snd = store1 :=
  error_leaves_store_unchanged store1 (Op.vyes "A" 5 "p1")
    "Owners cannot vote for their own proposal" rfl

/-- C10: in every store reachable from the empty store by any sequence of
operations, every key maps to a proposal record whose `id` field equals
that key — each mutating operation inserts its record under the record's
own id. -/
theorem reachable_key_matches_id (ops : List Op) : KeyInv (run [] ops) :=
  keyInv_run ops (fun kv hkv => absurd hkv (List.not_mem_nil kv))

end ICPDao
